import Mathlib

/-!
Verification of the off-chain publisher cache, issuer state machine, claim
codec and bitmap helpers of the go-iden3-core repository, via a shallow
embedding of the Go code into Lean.

The publisher (`components/idenpuboffchainwriter/idenpuboffchainwriter.go`)
is embedded directly from the source.  The issuer, the claim codec and the
merkletree bit helpers are not part of the provided sources (only their
tests are), so those definitions are modelled from the specification and
are marked as such in their doc comments.
-/

deriving instance DecidableEq for Except

namespace Iden3

/-- Byte strings: lists of naturals (each element is a byte value `< 256`). -/
abbrev Bytes := List Nat

/-- A key-value store, as used by the publisher through `db.Storage`.
Modelled as an association list where a `Put` prepends, so `storeGet`
returns the most recently written value for a key. -/
abbrev Store := List (Bytes × Bytes)

/-- Lookup in the store: the most recently put value for the key, if any. -/
def storeGet : Store → Bytes → Option Bytes
  | [], _ => none
  | (k', v) :: s, k => if k' = k then some v else storeGet s k

/-- Write a key-value pair to the store. -/
def storePut (s : Store) (k v : Bytes) : Store := (k, v) :: s

/-- Commit a transaction: apply its pending puts, in order, to the base
store.  This models `tx.Commit()` of the `db` package: all puts become
visible at once. -/
def commitPuts (base : Store) (puts : List (Bytes × Bytes)) : Store :=
  puts.foldl (fun s kv => storePut s kv.1 kv.2) base

/-- The byte string "config" (`dbKeyConfig` in the source). -/
def dbKeyConfig : Bytes := [99, 111, 110, 102, 105, 103]

/-- The byte string "cacheidx" (`dbKeyCacheIdx` in the source). -/
def dbKeyCacheIdx : Bytes := [99, 97, 99, 104, 101, 105, 100, 120]

/-- The byte string "idenstate" (`dbKeyIdenState` in the source). -/
def dbKeyIdenState : Bytes := [105, 100, 101, 110, 115, 116, 97, 116, 101]

/-- The byte string "claimsroot" (`dbKeyClaimsRoot` in the source). -/
def dbKeyClaimsRoot : Bytes := [99, 108, 97, 105, 109, 115, 114, 111, 111, 116]

/-- The byte string "rootsroot" (`dbKeyRootsRoot` in the source). -/
def dbKeyRootsRoot : Bytes := [114, 111, 111, 116, 115, 114, 111, 111, 116]

/-- The byte string "revocationsroot" (`dbKeyRevocationsRoot` in the source). -/
def dbKeyRevocationsRoot : Bytes :=
  [114, 101, 118, 111, 99, 97, 116, 105, 111, 110, 115, 114, 111, 111, 116]

/-- The byte string "rootstree" (`dbKeyRootsTree` in the source). -/
def dbKeyRootsTree : Bytes := [114, 111, 111, 116, 115, 116, 114, 101, 101]

/-- The byte string "revocationstree" (`dbKeyRevocationsTree` in the source). -/
def dbKeyRevocationsTree : Bytes :=
  [114, 101, 118, 111, 99, 97, 116, 105, 111, 110, 115, 116, 114, 101, 101]

/-- Errors of the publisher embedding.  `notFound` is `db.ErrNotFound`;
`idenStateNotFound` is `ErrIdenStateNotFound`; `divByZero` models the Go
runtime panic on `% 0`; `emptyValue` models the panic of indexing
`cacheIdx[0]` on an empty slice; `slicePanic` models the panic of
`v[:32]` on a value shorter than 32 bytes; `dumpFailed` models a
`DumpTree` error. -/
inductive PubErr where
  | notFound
  | idenStateNotFound
  | divByZero
  | emptyValue
  | slicePanic
  | dumpFailed
deriving DecidableEq, Repr

/-- `Config` of the publisher: `CacheLen byte`. -/
structure PubConfig where
  cacheLen : Nat
deriving DecidableEq, Repr

/-- The model of the JSON-encoded configuration blob written under
`dbKeyConfig` (its exact byte content is irrelevant to the claims). -/
def configBlob (cfg : PubConfig) : Bytes := [cfg.cacheLen]

/-- Embeds `NewIdenPubOffChainWriteHttp`: in one transaction it runs
`initCacheIdx` (putting the byte 0 under "cacheidx") and stores the
config blob; nothing about `cfg.CacheLen` is validated. -/
def newIdenPubOffChainWriteHttp (cfg : PubConfig) (base : Store) : Store :=
  commitPuts base [(dbKeyCacheIdx, [0]), (dbKeyConfig, configBlob cfg)]

/-- Embeds `prevCacheIdx`: reads "cacheidx" and returns
`(cacheIdx[0] - 1) % CacheLen`, where the subtraction is Go byte
arithmetic, hence `(x + 255) % 256`, and `% 0` panics. -/
def prevCacheIdx (cacheLen : Nat) (cur : Option Bytes) : Except PubErr Nat :=
  match cur with
  | none => .error .notFound
  | some bs =>
    match bs with
    | [] => .error .emptyValue
    | x :: _ =>
      if cacheLen = 0 then .error .divByZero
      else .ok ((x + 255) % 256 % cacheLen)

/-- Embeds `Publish`.  The two `DumpTree` serialisations are inputs
(`none` models a dump error, in which case `Publish` returns before the
transaction exists).  On success the single transaction carries the
cursor advance from `nextCacheIdx` plus the six keyed records, all
committed together; on any error nothing is committed (`tx.Close`). -/
def publish (cfg : PubConfig) (base : Store) (rotBlob retBlob : Option Bytes)
    (idenState claimsRoot revocationsRoot rootsRoot : Bytes) :
    Except PubErr Store :=
  match rotBlob with
  | none => .error .dumpFailed
  | some rot =>
    match retBlob with
    | none => .error .dumpFailed
    | some ret =>
      -- nextCacheIdx: read "cacheidx", put the advanced cursor, return the
      -- current one; the six records are suffixed by the current cursor.
      match storeGet base dbKeyCacheIdx with
      | none => .error .notFound
      | some bs =>
        match bs with
        | [] => .error .emptyValue
        | x :: _ =>
          if cfg.cacheLen = 0 then .error .divByZero
          else
            .ok (commitPuts base
              [(dbKeyCacheIdx, [(x + 1) % 256 % cfg.cacheLen]),
               (dbKeyIdenState ++ [x], idenState),
               (dbKeyClaimsRoot ++ [x], claimsRoot),
               (dbKeyRootsRoot ++ [x], rootsRoot),
               (dbKeyRootsTree ++ [x], rot),
               (dbKeyRevocationsRoot ++ [x], revocationsRoot),
               (dbKeyRevocationsTree ++ [x], ret)])

/-- `PublicData` returned by `GetPublicData`. -/
structure PublicData where
  idenState : Bytes
  claimsTreeRoot : Bytes
  rootsTreeRoot : Bytes
  rootsTree : Bytes
  revocationsTreeRoot : Bytes
  revocationsTree : Bytes
deriving DecidableEq, Repr

/-- A `tx.Get` that turns a missing key into `db.ErrNotFound`. -/
def getK (base : Store) (k : Bytes) : Except PubErr Bytes :=
  match storeGet base k with
  | none => .error .notFound
  | some v => .ok v

/-- Models `copy(x32[:], v[:32])`: take the first 32 bytes, panicking
when the value is shorter. -/
def sliceHash (v : Bytes) : Except PubErr Bytes :=
  if 32 ≤ v.length then .ok (v.take 32) else .error .slicePanic

/-- The tail of `GetPublicData`: read the six records stored at slot
`idx` and assemble the `PublicData`. -/
def readSlot (base : Store) (idx : Nat) : Except PubErr PublicData :=
  match getK base (dbKeyIdenState ++ [idx]) with
  | .error e => .error e
  | .ok idenState =>
  match getK base (dbKeyClaimsRoot ++ [idx]) with
  | .error e => .error e
  | .ok cltRoot =>
  match getK base (dbKeyRootsRoot ++ [idx]) with
  | .error e => .error e
  | .ok rotRoot =>
  match getK base (dbKeyRootsTree ++ [idx]) with
  | .error e => .error e
  | .ok rot =>
  match getK base (dbKeyRevocationsRoot ++ [idx]) with
  | .error e => .error e
  | .ok retRoot =>
  match getK base (dbKeyRevocationsTree ++ [idx]) with
  | .error e => .error e
  | .ok ret =>
  match sliceHash idenState with
  | .error e => .error e
  | .ok is32 =>
  match sliceHash cltRoot with
  | .error e => .error e
  | .ok clt32 =>
  match sliceHash rotRoot with
  | .error e => .error e
  | .ok rot32 =>
  match sliceHash retRoot with
  | .error e => .error e
  | .ok ret32 =>
    .ok { idenState := is32, claimsTreeRoot := clt32, rootsTreeRoot := rot32,
          rootsTree := rot, revocationsTreeRoot := ret32,
          revocationsTree := ret }

/-- The linear scan of `GetPublicData` for a non-nil query: starting at
slot `idx` with `fuel` slots left (`fuel = CacheLen - idx`), return the
first slot whose stored "idenstate" equals the query; when the loop
exhausts the cache (`idx == CacheLen`) the result is
`ErrIdenStateNotFound`; a missing "idenstate" key surfaces the storage
error. -/
def scanSlots (base : Store) (q : Bytes) : Nat → Nat → Except PubErr Nat
  | _, 0 => .error .idenStateNotFound
  | idx, fuel + 1 =>
    match storeGet base (dbKeyIdenState ++ [idx]) with
    | none => .error .notFound
    | some v => if v = q then .ok idx else scanSlots base q (idx + 1) fuel

/-- Embeds `GetPublicData`: for a nil query, `cacheIdx` is set to the
slot computed by `prevCacheIdx` and that slot is read.  For a non-nil
query the loop only locates a matching slot (its counter `idx` is local
to the branch); the six records are then read at the Go variable
`cacheIdx`, which is never assigned in this branch and keeps its zero
value — so the query branch always reads slot 0. -/
def getPublicData (cfg : PubConfig) (base : Store) (query : Option Bytes) :
    Except PubErr PublicData :=
  match query with
  | none =>
    match prevCacheIdx cfg.cacheLen (storeGet base dbKeyCacheIdx) with
    | .error e => .error e
    | .ok idx => readSlot base idx
  | some q =>
    match scanSlots base q 0 cfg.cacheLen with
    | .error e => .error e
    | .ok _ => readSlot base 0

/-! ### Issuer (modelled from the spec)

The issuer implementation (`issuer.go`) is not among the provided source
files — only its tests are — so the issuer state machine below is
modelled from the specification (sections 3, 4.5 and 7 of the spec). -/

/-- Modelled from the spec: the issuer's persistent state (spec section 3,
"Issuer persistent state"); `issuer.go` is missing from the sources.
Hashes are naturals (the value of the 32-byte big-endian hash), with `0`
the all-zero "empty" sentinel. -/
structure IssuerState where
  idenStateList : List Nat
  idenStateOnChain : Nat
  idenStatePending : Nat
  claimToState : List (Nat × Nat)
  claimsRoot : Nat
  revocationsRoot : Nat
  rootsRoot : Nat
  id : Nat
deriving DecidableEq, Repr

/-- Modelled from the spec: `IdenStateFromRoots(clr, rer, ror) = H(clr,
rer, ror)`, over an arbitrary hash function `h`. -/
def idenStateFromRoots (h : List Nat → Nat) (clr rer ror : Nat) : Nat :=
  h [clr, rer, ror]

/-- Modelled from the spec: the issuer's current state `state() =
H(claimsRoot, revocationsRoot, rootsRoot)`. -/
def issuerNowState (h : List Nat → Nat) (st : IssuerState) : Nat :=
  idenStateFromRoots h st.claimsRoot st.revocationsRoot st.rootsRoot

/-- Modelled from the spec: `Issuer.New` with hash function `h`,
identifier derivation `idFromState` (`IdFromIdenState`) and the
claims-tree root function `claimsTreeRootOf` (the SMT root after the
initial claims are inserted; initial claims are given by their index
hashes).  It creates the three SMTs (revocations and roots trees stay
empty, root `0`), inserts the initial claims, derives the identifier
from `IdenStateFromRoots(claimsRoot, 0, 0)` and seeds the state log with
the resulting genesis state. -/
def issuerNew (h : List Nat → Nat) (idFromState : Nat → Nat)
    (claimsTreeRootOf : List Nat → Nat) (initialClaims : List Nat) :
    IssuerState :=
  let clr := claimsTreeRootOf initialClaims
  let genesis := idenStateFromRoots h clr 0 0
  { idenStateList := [genesis]
    idenStateOnChain := 0
    idenStatePending := 0
    claimToState := initialClaims.map (fun hi => (hi, 0))
    claimsRoot := clr
    revocationsRoot := 0
    rootsRoot := 0
    id := idFromState genesis }

/-- Error of `SyncIdenStatePublic`. -/
inductive SyncErr where
  | unexpectedOnChainState
deriving DecidableEq, Repr

/-- Modelled from the spec: `SyncIdenStatePublic` queries
`registry.GetState(id)` (the result is the argument `reg`).  If it
equals `idenStatePending`, advance `idenStateOnChain = idenStatePending`
and clear `idenStatePending`; if it equals `idenStateOnChain`, no-op;
otherwise `UnexpectedOnChainState`.  On error no state is mutated. -/
def syncIdenStatePublic (st : IssuerState) (reg : Nat) :
    Except SyncErr IssuerState :=
  if reg = st.idenStatePending then
    .ok { st with idenStateOnChain := st.idenStatePending,
                  idenStatePending := 0 }
  else if reg = st.idenStateOnChain then
    .ok st
  else
    .error .unexpectedOnChainState

/-- Errors of `GenCredentialExistence`. -/
inductive CredErr where
  | idenStateOnChainZero
  | claimNotFoundStateOnChain
  | claimNotFound
deriving DecidableEq, Repr

/-- A credential of existence (only the parts the claims speak about:
which claim, and against which on-chain state it was built). -/
structure CredentialExistence where
  claimHIndex : Nat
  idenState : Nat
deriving DecidableEq, Repr

/-- The index of a state in the issuer's state log (`index(s)` in the
spec; `List.indexOf` returns the log length when the state is absent). -/
def stateLogIndex (st : IssuerState) (s : Nat) : Nat :=
  st.idenStateList.indexOf s

/-- Modelled from the spec: `GenCredentialExistence(claim)` looks up the
claim's recorded state index (`claimtostate/<HIndex>`); it requires
`idenStateOnChain ≠ 0` (`IdenStateOnChainZero`) and `claim.stateIndex ≤
index(idenStateOnChain)` (`ClaimNotFoundStateOnChain`), and otherwise
returns a credential built against the on-chain state. -/
def genCredentialExistence (st : IssuerState) (hIndex : Nat) :
    Except CredErr CredentialExistence :=
  if st.idenStateOnChain = 0 then .error .idenStateOnChainZero
  else
    match st.claimToState.lookup hIndex with
    | none => .error .claimNotFound
    | some stateIdx =>
      if stateLogIndex st st.idenStateOnChain < stateIdx then
        .error .claimNotFoundStateOnChain
      else
        .ok { claimHIndex := hIndex, idenState := st.idenStateOnChain }

/-! ### Claim codec (modelled from the spec)

The claims package is not among the provided source files (only its
tests are), so the codec is modelled from the specification (section
4.4): a 64-bit claim type in the low bytes of `i_0`, the claim version
next to it, the BabyJubJub public key (sign bit and `Ay` coordinate) in
the index, and the revocation nonce as part of the value. -/

/-- The prime `Q` bounding field elements (the ≈254-bit prime of the
spec, section 3; the BN254 scalar-field prime used by Poseidon). -/
def fieldQ : Nat :=
  21888242871839275222246405745257275088548364400416034343698204186575808495617

/-- An SMT entry: 8 field elements `{i_0..i_3, v_0..v_3}`, each a
natural below `fieldQ` when well-formed. -/
structure Entry where
  i0 : Nat
  i1 : Nat
  i2 : Nat
  i3 : Nat
  v0 : Nat
  v1 : Nat
  v2 : Nat
  v3 : Nat
deriving DecidableEq, Repr

/-- `CheckEntryInField`: every slot encodes a value `< Q`. -/
def checkEntryInField (e : Entry) : Bool :=
  decide (e.i0 < fieldQ) && decide (e.i1 < fieldQ) &&
  decide (e.i2 < fieldQ) && decide (e.i3 < fieldQ) &&
  decide (e.v0 < fieldQ) && decide (e.v1 < fieldQ) &&
  decide (e.v2 < fieldQ) && decide (e.v3 < fieldQ)

/-- Modelled from the spec: the 64-bit type tag of
`ClaimAuthorizeKSignBabyJub` (a fixed value; the spec does not pin the
number). -/
def claimTypeAuthorizeKSignBabyJub : Nat := 1

/-- Modelled from the spec: a `ClaimAuthorizeKSignBabyJub`, built from a
BabyJubJub public key (compressed as a sign bit and the `Ay`
coordinate), a revocation nonce and a version. -/
structure ClaimAuthorizeKSignBabyJub where
  version : Nat
  sign : Bool
  ay : Nat
  revocationNonce : Nat
deriving DecidableEq, Repr

/-- Modelled from the spec: `NewClaimAuthorizeKSignBabyJub(pk, nonce)`
builds the claim with version 0. -/
def newClaimAuthorizeKSignBabyJub (sign : Bool) (ay : Nat) (nonce : Nat) :
    ClaimAuthorizeKSignBabyJub :=
  { version := 0, sign := sign, ay := ay, revocationNonce := nonce }

/-- Modelled from the spec: `Claim → Entry` for
`ClaimAuthorizeKSignBabyJub`.  The 64-bit type tag sits in the low bytes
of `i_0`, then the 32-bit version, then the key's sign bit; `i_1` holds
the `Ay` coordinate; the revocation nonce is part of the value (`v_0`),
so that different revocation states share the same `HIndex`. -/
def ClaimAuthorizeKSignBabyJub.entry (c : ClaimAuthorizeKSignBabyJub) :
    Entry :=
  { i0 := claimTypeAuthorizeKSignBabyJub + 2 ^ 64 * c.version +
          2 ^ 96 * (if c.sign then 1 else 0)
    i1 := c.ay
    i2 := 0
    i3 := 0
    v0 := c.revocationNonce
    v1 := 0
    v2 := 0
    v3 := 0 }

/-- The 64-bit claim type tag of an entry (low bytes of `i_0`). -/
def entryClaimType (e : Entry) : Nat := e.i0 % 2 ^ 64

/-- Modelled from the spec: the type-specific `Entry → Claim`
constructor `NewClaimAuthorizeKSignBabyJubFromEntry`. -/
def newClaimAuthorizeKSignBabyJubFromEntry (e : Entry) :
    ClaimAuthorizeKSignBabyJub :=
  { version := e.i0 / 2 ^ 64 % 2 ^ 32
    sign := e.i0 / 2 ^ 96 % 2 = 1
    ay := e.i1
    revocationNonce := e.v0 }

/-- A claim as returned by the generic dispatcher: either a recognised
variant or an opaque claim retaining the raw entry. -/
inductive GenericClaim where
  | authKSignBabyJub (c : ClaimAuthorizeKSignBabyJub)
  | unknownClaim (e : Entry)
deriving DecidableEq, Repr

/-- Modelled from the spec: the dispatcher `NewClaimFromEntry` inspects
the 64-bit type tag and returns the appropriate variant; unknown types
are accepted as an opaque claim carrying the raw entry. -/
def newClaimFromEntry (e : Entry) : GenericClaim :=
  if entryClaimType e = claimTypeAuthorizeKSignBabyJub then
    .authKSignBabyJub (newClaimAuthorizeKSignBabyJubFromEntry e)
  else
    .unknownClaim e

/-! ### Bitmap helpers (modelled from the spec)

`setBitBigEndian` and `testBitBigEndian` live in the merkletree package,
which is not among the provided source files (only its test is); they
are modelled from the spec (section 4.1): bit `i` is the `(i mod 8)`-th
most significant bit of byte `i / 8`. -/

/-- Modelled from the spec: `setBit(buf, i)` sets the `(i mod 8)`-th most
significant bit of byte `i / 8` (bit 0 of a byte is the `0x80` bit). -/
def setBitBigEndian (buf : List Nat) (i : Nat) : List Nat :=
  buf.set (i / 8) (buf.getD (i / 8) 0 ||| 2 ^ (7 - i % 8))

/-- Modelled from the spec: `testBit(buf, i)` tests the `(i mod 8)`-th
most significant bit of byte `i / 8`. -/
def testBitBigEndian (buf : List Nat) (i : Nat) : Bool :=
  buf.getD (i / 8) 0 &&& 2 ^ (7 - i % 8) != 0

/-- The all-zero 32-byte buffer of the bitmap scenario. -/
def zeros32 : List Nat := List.replicate 32 0

/-! ### Properties (statements of the claims) -/

/-- The atomic commit shape of a successful `Publish` with current cursor
byte `x`: the six keyed records and the advanced cursor are all visible
in the committed store, and every other key is untouched. -/
def publishCommitsAtomically (cfg : PubConfig) (base : Store)
    (rot ret idenState claimsRoot revocationsRoot rootsRoot : Bytes)
    (x : Nat) : Prop :=
  ∃ s', publish cfg base (some rot) (some ret)
          idenState claimsRoot revocationsRoot rootsRoot = .ok s' ∧
    storeGet s' dbKeyCacheIdx = some [(x + 1) % cfg.cacheLen] ∧
    storeGet s' (dbKeyIdenState ++ [x]) = some idenState ∧
    storeGet s' (dbKeyClaimsRoot ++ [x]) = some claimsRoot ∧
    storeGet s' (dbKeyRootsRoot ++ [x]) = some rootsRoot ∧
    storeGet s' (dbKeyRootsTree ++ [x]) = some rot ∧
    storeGet s' (dbKeyRevocationsRoot ++ [x]) = some revocationsRoot ∧
    storeGet s' (dbKeyRevocationsTree ++ [x]) = some ret ∧
    ∀ k, k ≠ dbKeyCacheIdx → k ≠ dbKeyIdenState ++ [x] →
      k ≠ dbKeyClaimsRoot ++ [x] → k ≠ dbKeyRootsRoot ++ [x] →
      k ≠ dbKeyRootsTree ++ [x] → k ≠ dbKeyRevocationsRoot ++ [x] →
      k ≠ dbKeyRevocationsTree ++ [x] →
      storeGet s' k = storeGet base k

/-- The behaviour of `GetPublicData` on a non-nil query over a cache
whose `CacheLen` slots all hold a stored identity state:
`ErrIdenStateNotFound` exactly when no slot matches; when some slot
matches (the scan stops at the first match), the result is the data
stored at slot 0 — the `cacheIdx` variable of the source is never
assigned in the query branch — and when slot 0 holds its six records
(roots 32 bytes long), those six fields are what is returned. -/
def getPublicDataScanSpec (cfg : PubConfig) (base : Store) (q : Bytes) :
    Prop :=
  (getPublicData cfg base (some q) = .error .idenStateNotFound ↔
    ∀ i, i < cfg.cacheLen → storeGet base (dbKeyIdenState ++ [i]) ≠ some q) ∧
  (∀ j, j < cfg.cacheLen → storeGet base (dbKeyIdenState ++ [j]) = some q →
    getPublicData cfg base (some q) = readSlot base 0) ∧
  (∀ isv cltv rotv rotb retv retb,
    storeGet base (dbKeyIdenState ++ [0]) = some isv →
    storeGet base (dbKeyClaimsRoot ++ [0]) = some cltv →
    storeGet base (dbKeyRootsRoot ++ [0]) = some rotv →
    storeGet base (dbKeyRootsTree ++ [0]) = some rotb →
    storeGet base (dbKeyRevocationsRoot ++ [0]) = some retv →
    storeGet base (dbKeyRevocationsTree ++ [0]) = some retb →
    isv.length = 32 → cltv.length = 32 → rotv.length = 32 →
    retv.length = 32 →
    readSlot base 0 =
      .ok { idenState := isv, claimsTreeRoot := cltv, rootsTreeRoot := rotv,
            rootsTree := rotb, revocationsTreeRoot := retv,
            revocationsTree := retb })

/-- The behaviour of `SyncIdenStatePublic` on an issuer with a pending
state: registry returning the pending state advances `idenStateOnChain`
and clears `idenStatePending`; registry returning the (distinct) current
on-chain state is a no-op; every successful call keeps the on-chain
pointer monotone (given the log-index invariant) and mutates nothing
else. -/
def syncSpec (st : IssuerState) (reg : Nat) : Prop :=
  (reg = st.idenStatePending →
    syncIdenStatePublic st reg =
      .ok { st with idenStateOnChain := st.idenStatePending,
                    idenStatePending := 0 }) ∧
  (reg = st.idenStateOnChain → reg ≠ st.idenStatePending →
    syncIdenStatePublic st reg = .ok st) ∧
  (∀ st', syncIdenStatePublic st reg = .ok st' →
    (stateLogIndex st st.idenStateOnChain ≤
        stateLogIndex st st.idenStatePending →
      stateLogIndex st st.idenStateOnChain ≤
        stateLogIndex st' st'.idenStateOnChain) ∧
    st'.idenStateList = st.idenStateList ∧
    st'.claimToState = st.claimToState ∧
    st'.claimsRoot = st.claimsRoot ∧
    st'.revocationsRoot = st.revocationsRoot ∧
    st'.rootsRoot = st.rootsRoot ∧
    st'.id = st.id)

/-- The behaviour of `GenCredentialExistence` on a claim recorded at
state index `stateIdx`: zero on-chain state fails with
`IdenStateOnChainZero`; a state index beyond the on-chain state's log
index fails with `ClaimNotFoundStateOnChain`; otherwise a credential is
returned, and a credential is only ever returned when `stateIdx ≤
index(idenStateOnChain)`. -/
def genCredSpec (st : IssuerState) (hIndex stateIdx : Nat) : Prop :=
  (st.idenStateOnChain = 0 →
    genCredentialExistence st hIndex = .error .idenStateOnChainZero) ∧
  (st.idenStateOnChain ≠ 0 →
    stateLogIndex st st.idenStateOnChain < stateIdx →
    genCredentialExistence st hIndex = .error .claimNotFoundStateOnChain) ∧
  (st.idenStateOnChain ≠ 0 →
    stateIdx ≤ stateLogIndex st st.idenStateOnChain →
    genCredentialExistence st hIndex =
      .ok { claimHIndex := hIndex, idenState := st.idenStateOnChain }) ∧
  (∀ cred, genCredentialExistence st hIndex = .ok cred →
    st.idenStateOnChain ≠ 0 ∧
    stateIdx ≤ stateLogIndex st st.idenStateOnChain)

/-! ### Concrete inputs used by counterexamples and witnesses -/

/-- A 32-byte hash whose bytes all equal `b`. -/
def constHash (b : Nat) : Bytes := List.replicate 32 b

/-- A capacity-3 publisher cache after three successful publishes (of the
identity states `constHash 1`, `constHash 2`, `constHash 3`): the stored
cursor has wrapped back to 0 and the most recently written slot is 2. -/
def c1Store : Store :=
  match publish ⟨3⟩ (newIdenPubOffChainWriteHttp ⟨3⟩ []) (some []) (some [])
      (constHash 1) (constHash 1) (constHash 1) (constHash 1) with
  | .error _ => []
  | .ok s1 =>
    match publish ⟨3⟩ s1 (some []) (some [])
        (constHash 2) (constHash 2) (constHash 2) (constHash 2) with
    | .error _ => []
    | .ok s2 =>
      match publish ⟨3⟩ s2 (some []) (some [])
          (constHash 3) (constHash 3) (constHash 3) (constHash 3) with
      | .error _ => []
      | .ok s3 => s3

/-- A freshly created capacity-1 publisher cache: no slot written yet. -/
def freshStore : Store := newIdenPubOffChainWriteHttp ⟨1⟩ []

/-- A capacity-2 publisher cache holding two published identity states:
`constHash 1` at slot 0 and `constHash 2` at slot 1. -/
def c7Store : Store :=
  match publish ⟨2⟩ (newIdenPubOffChainWriteHttp ⟨2⟩ []) (some []) (some [])
      (constHash 1) (constHash 1) (constHash 1) (constHash 1) with
  | .error _ => []
  | .ok s1 =>
    match publish ⟨2⟩ s1 (some []) (some [])
        (constHash 2) (constHash 2) (constHash 2) (constHash 2) with
    | .error _ => []
    | .ok s2 => s2

/-- A capacity-1 cache holding one published slot, used by witnesses. -/
def oneSlotStore : Store :=
  match publish ⟨1⟩ freshStore (some [1, 2]) (some [3, 4])
      (constHash 5) (constHash 6) (constHash 7) (constHash 8) with
  | .error _ => []
  | .ok s => s

/-- A concrete issuer state with a pending publish, used by witnesses:
the log holds the genesis state 10 and the pending state 20; state 20 is
on the registry but not yet synced. -/
def issuerPendingState : IssuerState :=
  { idenStateList := [10, 20]
    idenStateOnChain := 10
    idenStatePending := 20
    claimToState := [(7, 0), (8, 1)]
    claimsRoot := 4
    revocationsRoot := 0
    rootsRoot := 0
    id := 99 }

/-- A concrete issuer state whose on-chain pointer is the genesis state,
with one claim included at state index 0 and one at index 1, used by
witnesses for the credential claims. -/
def issuerOnChainState : IssuerState :=
  { idenStateList := [10, 20]
    idenStateOnChain := 10
    idenStatePending := 0
    claimToState := [(7, 0), (8, 1)]
    claimsRoot := 4
    revocationsRoot := 0
    rootsRoot := 0
    id := 99 }

/-- A concrete `ClaimAuthorizeKSignBabyJub`, used by the codec witness. -/
def sampleClaim : ClaimAuthorizeKSignBabyJub :=
  { version := 1, sign := true, ay := 5678901234567890, revocationNonce := 5678 }

/-- The amended behaviour of `prevCacheIdx` (claim C1 as corrected): for
a stored cursor byte `x`, the slot index is `((x + 255) mod 256) mod C`,
which equals `(x - 1) mod C` for `x ≥ 1`; for `x = 0` it is `255 mod C`,
which equals `C - 1` exactly when `C` divides 256 (in particular for the
default `C = 1`); and `GetPublicData(nil)` reads the slot computed by
`prevCacheIdx`. -/
def prevCacheIdxSpec (C x : Nat) (rest : Bytes) : Prop :=
  prevCacheIdx C (some (x :: rest)) = .ok ((x + 255) % 256 % C) ∧
  (1 ≤ x → (x + 255) % 256 % C = (x - 1) % C) ∧
  (x = 0 → (x + 255) % 256 % C = 255 % C) ∧
  (256 % C = 0 → x = 0 → (x + 255) % 256 % C = C - 1) ∧
  (∀ base idx, storeGet base dbKeyCacheIdx = some (x :: rest) →
    prevCacheIdx C (storeGet base dbKeyCacheIdx) = .ok idx →
    getPublicData ⟨C⟩ base none = readSlot base idx)

/-- Failure cases of `Publish`: a failed tree dump or a missing cursor
key yields an error, and by the `Except` shape of the embedding no store
is produced — nothing is committed (`tx.Close`). -/
def publishFailSpec (cfg : PubConfig) : Prop :=
  (∀ base retO i j k l,
    publish cfg base none retO i j k l = .error .dumpFailed) ∧
  (∀ base rotB i j k l,
    publish cfg base (some rotB) none i j k l = .error .dumpFailed) ∧
  (∀ base rotB retB i j k l, storeGet base dbKeyCacheIdx = none →
    publish cfg base (some rotB) (some retB) i j k l = .error .notFound)

/-- The round-trip of claim C5: on a freshly configured capacity-1
cache, a successful `Publish` followed by `GetPublicData(nil)` returns
exactly the four published hashes and the two tree blobs. -/
def publishRoundTripSpec (base : Store) (a b c d rot ret : Bytes) : Prop :=
  ∃ s', publish ⟨1⟩ (newIdenPubOffChainWriteHttp ⟨1⟩ base)
      (some rot) (some ret) a b c d = .ok s' ∧
    getPublicData ⟨1⟩ s' none =
      .ok { idenState := a, claimsTreeRoot := b, rootsTreeRoot := d,
            rootsTree := rot, revocationsTreeRoot := c,
            revocationsTree := ret }

/-! ### Helper lemmas -/

theorem storeGet_put_self (s : Store) (k v : Bytes) :
    storeGet (storePut s k v) k = some v := by
  simp [storePut, storeGet]

theorem storeGet_put_of_ne (s : Store) {k k' : Bytes} (v : Bytes)
    (h : k ≠ k') : storeGet (storePut s k v) k' = storeGet s k' := by
  simp [storePut, storeGet, h]

theorem getK_error {base : Store} {k : Bytes} {e : PubErr}
    (h : getK base k = .error e) : e = .notFound := by
  unfold getK at h
  split at h <;> simp_all

theorem getK_ok {base : Store} {k v : Bytes}
    (h : storeGet base k = some v) : getK base k = .ok v := by
  simp [getK, h]

theorem sliceHash_error {v : Bytes} {e : PubErr}
    (h : sliceHash v = .error e) : e = .slicePanic := by
  unfold sliceHash at h
  split at h <;> simp_all

theorem sliceHash_of_len32 {v : Bytes} (h : v.length = 32) :
    sliceHash v = .ok v := by
  simp [sliceHash, h]

theorem readSlot_error {base : Store} {idx : Nat} {e : PubErr}
    (h : readSlot base idx = .error e) : e = .notFound ∨ e = .slicePanic := by
  unfold readSlot at h
  repeat' split at h
  all_goals simp only [Except.error.injEq, reduceCtorEq] at h
  all_goals subst h
  all_goals
    first
    | exact .inl (getK_error (by assumption))
    | exact .inr (sliceHash_error (by assumption))

theorem scanSlots_error {base : Store} {q : Bytes} :
    ∀ {fuel idx : Nat} {e : PubErr}, scanSlots base q idx fuel = .error e →
      e = .idenStateNotFound ∨ e = .notFound := by
  intro fuel
  induction fuel with
  | zero => intro idx e h; simp [scanSlots] at h; simp [h]
  | succ n ih =>
    intro idx e h
    unfold scanSlots at h
    split at h
    · simp at h; simp [h]
    · split at h
      · simp at h
      · exact ih h

theorem prevCacheIdx_error {C : Nat} {cur : Option Bytes} {e : PubErr}
    (hC : 1 ≤ C) (h : prevCacheIdx C cur = .error e) :
    e = .notFound ∨ e = .emptyValue := by
  unfold prevCacheIdx at h
  repeat' split at h
  all_goals simp_all

/-! ### Theorems for the claims -/

/-- C8: a new issuer with an empty initial-claims list has revocations
tree root zero, identifier `IdFromIdenState` of its current (genesis)
identity state, and a state log of length 1 whose entry 0 is the
genesis state. -/
theorem issuerNew_genesis (h : List Nat → Nat) (idf : Nat → Nat)
    (rootOf : List Nat → Nat) :
    (issuerNew h idf rootOf []).revocationsRoot = 0 ∧
    (issuerNew h idf rootOf []).id =
      idf (issuerNowState h (issuerNew h idf rootOf [])) ∧
    (issuerNew h idf rootOf []).idenStateList =
      [issuerNowState h (issuerNew h idf rootOf [])] := by
  simp [issuerNew, issuerNowState, idenStateFromRoots]

set_option maxRecDepth 4000 in
/-- C9: setting bits 7, 8 and 255 on an all-zero 32-byte buffer yields
exactly the bytes `01 80 00×29 01`; afterwards `testBit` is true at
7, 8 and 255 and false at 6 and 9; and setting any single bit `i < 256`
on the zero buffer makes `testBit` at `i` true (bit `i` addresses the
`(i mod 8)`-th most significant bit of byte `i / 8`). -/
theorem bitmap_setBit_testBit :
    setBitBigEndian (setBitBigEndian (setBitBigEndian zeros32 7) 8) 255 =
      [1, 128, 0, 0, 0, 0, 0, 0, 0, 0, 0, 0, 0, 0, 0, 0,
       0, 0, 0, 0, 0, 0, 0, 0, 0, 0, 0, 0, 0, 0, 0, 1] ∧
    testBitBigEndian
      (setBitBigEndian (setBitBigEndian (setBitBigEndian zeros32 7) 8) 255)
      7 = true ∧
    testBitBigEndian
      (setBitBigEndian (setBitBigEndian (setBitBigEndian zeros32 7) 8) 255)
      8 = true ∧
    testBitBigEndian
      (setBitBigEndian (setBitBigEndian (setBitBigEndian zeros32 7) 8) 255)
      255 = true ∧
    testBitBigEndian
      (setBitBigEndian (setBitBigEndian (setBitBigEndian zeros32 7) 8) 255)
      6 = false ∧
    testBitBigEndian
      (setBitBigEndian (setBitBigEndian (setBitBigEndian zeros32 7) 8) 255)
      9 = false ∧
    (∀ i, i < 256 → testBitBigEndian (setBitBigEndian zeros32 i) i = true) := by
  decide

/-- Witness for C9: the general clause applied at bit 100. -/
theorem bitmap_setBit_testBit_witness :
    (100 : Nat) < 256 ∧ testBitBigEndian (setBitBigEndian zeros32 100) 100 = true :=
  ⟨by decide, bitmap_setBit_testBit.2.2.2.2.2.2 100 (by decide)⟩

/-- C4: `SyncIdenStatePublic` on an issuer with a pending state:
registry returning the pending state advances `idenStateOnChain` to it
and clears `idenStatePending`; registry returning the current (distinct)
on-chain state changes nothing; every successful call keeps the on-chain
pointer monotone in the state log and mutates no other field. -/
theorem syncIdenStatePublic_spec (st : IssuerState) (reg : Nat)
    (_hpend : st.idenStatePending ≠ 0) : syncSpec st reg := by
  refine ⟨?_, ?_, ?_⟩
  · intro h
    simp [syncIdenStatePublic, h]
  · intro h hne
    subst h
    simp [syncIdenStatePublic, hne]
  · intro st' hok
    unfold syncIdenStatePublic at hok
    split at hok
    · obtain rfl : _ = st' := by injection hok
      refine ⟨fun hmono => ?_, rfl, rfl, rfl, rfl, rfl, rfl⟩
      simpa [stateLogIndex] using hmono
    · split at hok
      · obtain rfl : st = st' := by injection hok
        exact ⟨fun hmono => le_refl _, rfl, rfl, rfl, rfl, rfl, rfl⟩
      · exact absurd hok (by simp)

/-- Witness for C4: the pending issuer `issuerPendingState` synced
against a registry that returns its pending state 20. -/
theorem syncIdenStatePublic_spec_witness :
    issuerPendingState.idenStatePending ≠ 0 ∧ syncSpec issuerPendingState 20 :=
  ⟨by decide, syncIdenStatePublic_spec issuerPendingState 20 (by decide)⟩

/-- C3: `GenCredentialExistence` fails with `IdenStateOnChainZero` when
the on-chain state is the zero hash, fails with
`ClaimNotFoundStateOnChain` when the claim's recorded state index
exceeds the on-chain state's log index, and returns a credential exactly
for claims whose state index is at most that log index. -/
theorem genCredentialExistence_gating (st : IssuerState)
    (hIndex stateIdx : Nat)
    (hlook : st.claimToState.lookup hIndex = some stateIdx) :
    genCredSpec st hIndex stateIdx := by
  refine ⟨?_, ?_, ?_, ?_⟩
  · intro h
    simp [genCredentialExistence, h]
  · intro h hgt
    simp [genCredentialExistence, h, hlook, hgt]
  · intro h hle
    simp [genCredentialExistence, h, hlook, Nat.not_lt.mpr hle]
  · intro cred hok
    unfold genCredentialExistence at hok
    simp only [hlook] at hok
    split at hok
    · simp at hok
    · rename_i hz
      split at hok
      · simp at hok
      · rename_i hnlt
        exact ⟨hz, by omega⟩

/-- Witness for C3: the issuer `issuerOnChainState` (on-chain state 10 at
log index 0) and its claim with index hash 7 recorded at state index 0. -/
theorem genCredentialExistence_gating_witness :
    issuerOnChainState.claimToState.lookup 7 = some 0 ∧
    genCredSpec issuerOnChainState 7 0 :=
  ⟨by decide, genCredentialExistence_gating issuerOnChainState 7 0 (by decide)⟩

theorem i0_decode (v s : Nat) (hv : v < 2 ^ 32) (hs : s < 2) :
    (1 + 2 ^ 64 * v + 2 ^ 96 * s) % 2 ^ 64 = 1 ∧
    (1 + 2 ^ 64 * v + 2 ^ 96 * s) / 2 ^ 64 % 2 ^ 32 = v ∧
    (1 + 2 ^ 64 * v + 2 ^ 96 * s) / 2 ^ 96 % 2 = s := by
  have e1 : 1 + 2 ^ 64 * v + 2 ^ 96 * s = 1 + 2 ^ 64 * (v + 2 ^ 32 * s) := by
    ring
  refine ⟨?_, ?_, ?_⟩
  · rw [e1, Nat.add_mul_mod_self_left]
    exact Nat.mod_eq_of_lt (by norm_num)
  · rw [e1, Nat.add_mul_div_left _ _ (by norm_num : 0 < 2 ^ 64),
      Nat.div_eq_of_lt (by norm_num), Nat.zero_add,
      Nat.add_mul_mod_self_left, Nat.mod_eq_of_lt hv]
  · have e3 : 1 + 2 ^ 64 * v + 2 ^ 96 * s = (1 + 2 ^ 64 * v) + 2 ^ 96 * s := by
      ring
    have hb : 1 + 2 ^ 64 * v < 2 ^ 96 := by
      have := Nat.mul_le_mul_left (2 ^ 64) (show v ≤ 2 ^ 32 - 1 by omega)
      omega
    rw [e3, Nat.add_mul_div_left _ _ (by norm_num : 0 < 2 ^ 96),
      Nat.div_eq_of_lt hb, Nat.zero_add, Nat.mod_eq_of_lt hs]

/-- C6: for every well-formed `ClaimAuthorizeKSignBabyJub` (any BabyJubJub
public key, any 32-bit revocation nonce and version), decoding its entry
via the type-specific constructor and via the generic dispatcher
`NewClaimFromEntry` both reproduce the claim exactly, re-encoding yields
the identical entry, and the entry is in the field. -/
theorem claimAuthorizeKSignBabyJub_codec_roundTrip
    (c : ClaimAuthorizeKSignBabyJub) (hv : c.version < 2 ^ 32)
    (hay : c.ay < fieldQ) (hn : c.revocationNonce < 2 ^ 32) :
    newClaimAuthorizeKSignBabyJubFromEntry c.entry = c ∧
    newClaimFromEntry c.entry = .authKSignBabyJub c ∧
    (newClaimAuthorizeKSignBabyJubFromEntry c.entry).entry = c.entry ∧
    checkEntryInField c.entry = true := by
  obtain ⟨ver, sgn, ay, nonce⟩ := c
  dsimp only at hv hay hn
  obtain ⟨h1, h2, h3⟩ :=
    i0_decode ver (if sgn then 1 else 0) hv (by cases sgn <;> simp)
  have hdec : newClaimAuthorizeKSignBabyJubFromEntry
      (ClaimAuthorizeKSignBabyJub.entry ⟨ver, sgn, ay, nonce⟩) =
      ⟨ver, sgn, ay, nonce⟩ := by
    have hsgn :
        decide ((1 + 2 ^ 64 * ver + 2 ^ 96 * (if sgn then 1 else 0)) /
          2 ^ 96 % 2 = 1) = sgn := by
      simp only [h3]
      cases sgn <;> simp
    simp only [newClaimAuthorizeKSignBabyJubFromEntry,
      ClaimAuthorizeKSignBabyJub.entry, claimTypeAuthorizeKSignBabyJub,
      ClaimAuthorizeKSignBabyJub.mk.injEq, and_true, true_and]
    exact ⟨h2, hsgn⟩
  refine ⟨hdec, ?_, ?_, ?_⟩
  · have htag : entryClaimType
        (ClaimAuthorizeKSignBabyJub.entry ⟨ver, sgn, ay, nonce⟩) =
        claimTypeAuthorizeKSignBabyJub := by
      simp only [entryClaimType, ClaimAuthorizeKSignBabyJub.entry,
        claimTypeAuthorizeKSignBabyJub]
      exact h1
    unfold newClaimFromEntry
    rw [if_pos htag, hdec]
  · rw [hdec]
  · simp only [checkEntryInField, ClaimAuthorizeKSignBabyJub.entry,
      claimTypeAuthorizeKSignBabyJub, Bool.and_eq_true, decide_eq_true_eq]
    have hi0 : 1 + 2 ^ 64 * ver + 2 ^ 96 * (if sgn then 1 else 0) < fieldQ := by
      have := Nat.mul_le_mul_left (2 ^ 64) (show ver ≤ 2 ^ 32 - 1 by omega)
      have hs2 : (if sgn then 1 else 0) ≤ 1 := by cases sgn <;> simp
      unfold fieldQ
      omega
    refine ⟨⟨⟨⟨⟨⟨⟨hi0, hay⟩, ?_⟩, ?_⟩, ?_⟩, ?_⟩, ?_⟩, ?_⟩ <;>
      (unfold fieldQ; omega)

/-- Witness for C6: the codec round-trip at the concrete claim
`sampleClaim` (version 1, sign bit set, a concrete `Ay`, nonce 5678). -/
theorem claimAuthorizeKSignBabyJub_codec_roundTrip_witness :
    (sampleClaim.version < 2 ^ 32 ∧ sampleClaim.ay < fieldQ ∧
      sampleClaim.revocationNonce < 2 ^ 32) ∧
    (newClaimAuthorizeKSignBabyJubFromEntry sampleClaim.entry = sampleClaim ∧
     newClaimFromEntry sampleClaim.entry = .authKSignBabyJub sampleClaim ∧
     (newClaimAuthorizeKSignBabyJubFromEntry sampleClaim.entry).entry =
       sampleClaim.entry ∧
     checkEntryInField sampleClaim.entry = true) :=
  ⟨⟨by decide, by decide, by decide⟩,
   claimAuthorizeKSignBabyJub_codec_roundTrip sampleClaim (by decide)
     (by decide) (by decide)⟩

set_option maxRecDepth 8000 in
/-- C1 counterexample: with capacity `C = 3` and stored cursor byte
`x = 0` (as after three publishes, when the cursor has wrapped),
`prevCacheIdx` returns slot 0, not `(x − 1) mod C = C − 1 = 2`; and
`GetPublicData(nil)` on the concrete three-publish cache `c1Store`
returns the oldest slot (identity state `constHash 1`) instead of the
most recently written one (`constHash 3`, stored at slot 2). -/
theorem prevCacheIdx_cursorZero_counterexample :
    prevCacheIdx 3 (some [0]) = .ok 0 ∧ (0 : Nat) ≠ 3 - 1 ∧
    storeGet c1Store dbKeyCacheIdx = some [0] ∧
    storeGet c1Store (dbKeyIdenState ++ [2]) = some (constHash 3) ∧
    getPublicData ⟨3⟩ c1Store none =
      .ok { idenState := constHash 1, claimsTreeRoot := constHash 1,
            rootsTreeRoot := constHash 1, rootsTree := [],
            revocationsTreeRoot := constHash 1, revocationsTree := [] } ∧
    constHash 1 ≠ constHash 3 := by
  decide

/-- C1 (amended): for every capacity `C ≥ 1` and stored cursor byte `x`,
`GetPublicData(nil)` reads the slot computed by `prevCacheIdx`, and that
slot index is `((x + 255) mod 256) mod C` — equal to `(x − 1) mod C`
when `x ≥ 1`, and for `x = 0` equal to `255 mod C`, which is `C − 1`
exactly when `C` divides 256 (e.g. the default `C = 1`). -/
theorem prevCacheIdx_amended (C x : Nat) (rest : Bytes)
    (hC : 1 ≤ C) (hx : x < 256) : prevCacheIdxSpec C x rest := by
  have hC0 : ¬ C = 0 := by omega
  refine ⟨?_, ?_, ?_, ?_, ?_⟩
  · simp [prevCacheIdx, hC0]
  · intro hx1
    have : (x + 255) % 256 = x - 1 := by omega
    rw [this]
  · intro hx0
    subst hx0
    norm_num
  · intro hdvd hx0
    subst hx0
    have hdC : C ∣ 256 := Nat.dvd_of_mod_eq_zero hdvd
    obtain ⟨k, hk⟩ := hdC
    have hkpos : 1 ≤ k := by
      rcases Nat.eq_zero_or_pos k with h | h
      · subst h
        simp at hk
      · exact h
    have hk2 : k = (k - 1) + 1 := by omega
    rw [hk2, Nat.mul_succ] at hk
    have h255 : (0 + 255) % 256 = 255 := by norm_num
    rw [h255]
    generalize ht : C * (k - 1) = t at hk
    have he : 255 = C * (k - 1) + (C - 1) := by rw [ht]; omega
    rw [he, Nat.mul_add_mod, Nat.mod_eq_of_lt (by omega)]
  · intro base idx hs hp
    simp only [getPublicData, hp]

/-- Witness for C1 (amended): capacity 1 with cursor byte 0. -/
theorem prevCacheIdx_amended_witness :
    ((1 : Nat) ≤ 1 ∧ (0 : Nat) < 256) ∧ prevCacheIdxSpec 1 0 [] :=
  ⟨⟨by decide, by decide⟩, prevCacheIdx_amended 1 0 [] (by decide) (by decide)⟩

/-- C2: a successful `Publish` commits, in one transaction, the six
keyed records (each suffixed with the current cursor byte `x`) together
with the cursor advance to `(x + 1) mod C`, touching no other key; and
when a tree dump fails or the cursor key is missing, `Publish` returns
an error with nothing committed. -/
theorem publish_atomic (cfg : PubConfig) (base : Store)
    (rot ret a b c d : Bytes) (x : Nat) (rest : Bytes)
    (hC : cfg.cacheLen ≤ 255) (hx : x < cfg.cacheLen)
    (hcur : storeGet base dbKeyCacheIdx = some (x :: rest)) :
    publishCommitsAtomically cfg base rot ret a b c d x ∧
    publishFailSpec cfg := by
  have hC0 : ¬ cfg.cacheLen = 0 := by omega
  have hmod : (x + 1) % 256 = x + 1 := Nat.mod_eq_of_lt (by omega)
  constructor
  · refine ⟨commitPuts base
      [(dbKeyCacheIdx, [(x + 1) % 256 % cfg.cacheLen]),
       (dbKeyIdenState ++ [x], a),
       (dbKeyClaimsRoot ++ [x], b),
       (dbKeyRootsRoot ++ [x], d),
       (dbKeyRootsTree ++ [x], rot),
       (dbKeyRevocationsRoot ++ [x], c),
       (dbKeyRevocationsTree ++ [x], ret)], ?_, ?_, ?_, ?_, ?_, ?_, ?_, ?_, ?_⟩
    · simp [publish, hcur, hC0]
    · simp [commitPuts, storePut, storeGet, hmod, dbKeyCacheIdx,
        dbKeyIdenState, dbKeyClaimsRoot, dbKeyRootsRoot, dbKeyRootsTree,
        dbKeyRevocationsRoot, dbKeyRevocationsTree]
    · simp [commitPuts, storePut, storeGet, dbKeyIdenState, dbKeyClaimsRoot,
        dbKeyRootsRoot, dbKeyRootsTree, dbKeyRevocationsRoot,
        dbKeyRevocationsTree]
    · simp [commitPuts, storePut, storeGet, dbKeyIdenState, dbKeyClaimsRoot,
        dbKeyRootsRoot, dbKeyRootsTree, dbKeyRevocationsRoot,
        dbKeyRevocationsTree]
    · simp [commitPuts, storePut, storeGet, dbKeyIdenState, dbKeyClaimsRoot,
        dbKeyRootsRoot, dbKeyRootsTree, dbKeyRevocationsRoot,
        dbKeyRevocationsTree]
    · simp [commitPuts, storePut, storeGet, dbKeyIdenState, dbKeyClaimsRoot,
        dbKeyRootsRoot, dbKeyRootsTree, dbKeyRevocationsRoot,
        dbKeyRevocationsTree]
    · simp [commitPuts, storePut, storeGet, dbKeyIdenState, dbKeyClaimsRoot,
        dbKeyRootsRoot, dbKeyRootsTree, dbKeyRevocationsRoot,
        dbKeyRevocationsTree]
    · simp [commitPuts, storePut, storeGet, dbKeyIdenState, dbKeyClaimsRoot,
        dbKeyRootsRoot, dbKeyRootsTree, dbKeyRevocationsRoot,
        dbKeyRevocationsTree]
    · intro k h1 h2 h3 h4 h5 h6 h7
      simp only [commitPuts, List.foldl]
      rw [storeGet_put_of_ne _ _ (Ne.symm h7),
        storeGet_put_of_ne _ _ (Ne.symm h6),
        storeGet_put_of_ne _ _ (Ne.symm h5),
        storeGet_put_of_ne _ _ (Ne.symm h4),
        storeGet_put_of_ne _ _ (Ne.symm h3),
        storeGet_put_of_ne _ _ (Ne.symm h2),
        storeGet_put_of_ne _ _ (Ne.symm h1)]
  · refine ⟨fun base2 retO i j k l => rfl, fun base2 rotB i j k l => rfl,
      fun base2 rotB retB i j k l hnone => ?_⟩
    simp [publish, hnone]

/-- Witness for C2: a capacity-1 cache whose store holds the cursor
byte 0, published with concrete hashes and blobs. -/
theorem publish_atomic_witness :
    ((1 : Nat) ≤ 255 ∧ (0 : Nat) < 1 ∧
      storeGet [(dbKeyCacheIdx, [0])] dbKeyCacheIdx = some (0 :: [])) ∧
    (publishCommitsAtomically ⟨1⟩ [(dbKeyCacheIdx, [0])] [1, 2] [3, 4]
      (constHash 5) (constHash 6) (constHash 7) (constHash 8) 0 ∧
     publishFailSpec ⟨1⟩) :=
  ⟨⟨by decide, by decide, by decide⟩,
   publish_atomic ⟨1⟩ [(dbKeyCacheIdx, [0])] [1, 2] [3, 4]
     (constHash 5) (constHash 6) (constHash 7) (constHash 8) 0 []
     (by decide) (by decide) (by decide)⟩

/-- C5: on a freshly configured capacity-1 publisher, after a successful
`Publish(idenState, claimsRoot, revocationsRoot, rootsRoot)`,
`GetPublicData(nil)` returns a `PublicData` whose `IdenState`,
`ClaimsTreeRoot`, `RootsTreeRoot` and `RevocationsTreeRoot` equal the
arguments of that `Publish` call (in particular `RootsTreeRoot` equals
the published roots-tree root). -/
theorem publish_getPublicData_roundTrip (base : Store)
    (a b c d rot ret : Bytes)
    (ha : a.length = 32) (hb : b.length = 32) (hc : c.length = 32)
    (hd : d.length = 32) :
    publishRoundTripSpec base a b c d rot ret := by
  have hcur : storeGet (newIdenPubOffChainWriteHttp ⟨1⟩ base)
      dbKeyCacheIdx = some [0] := by
    simp [newIdenPubOffChainWriteHttp, commitPuts, storePut, storeGet,
      dbKeyConfig, dbKeyCacheIdx]
  refine ⟨commitPuts (newIdenPubOffChainWriteHttp ⟨1⟩ base)
      [(dbKeyCacheIdx, [(0 + 1) % 256 % 1]),
       (dbKeyIdenState ++ [0], a),
       (dbKeyClaimsRoot ++ [0], b),
       (dbKeyRootsRoot ++ [0], d),
       (dbKeyRootsTree ++ [0], rot),
       (dbKeyRevocationsRoot ++ [0], c),
       (dbKeyRevocationsTree ++ [0], ret)], ?_, ?_⟩
  · simp [publish, hcur]
  · simp [getPublicData, prevCacheIdx, readSlot, getK, commitPuts, storePut,
      storeGet, newIdenPubOffChainWriteHttp, dbKeyConfig, dbKeyCacheIdx,
      dbKeyIdenState, dbKeyClaimsRoot, dbKeyRootsRoot, dbKeyRootsTree,
      dbKeyRevocationsRoot, dbKeyRevocationsTree,
      sliceHash_of_len32 ha, sliceHash_of_len32 hb, sliceHash_of_len32 hc,
      sliceHash_of_len32 hd]

/-- Witness for C5: the round trip with concrete 32-byte hashes and
concrete tree blobs. -/
theorem publish_getPublicData_roundTrip_witness :
    ((constHash 5).length = 32 ∧ (constHash 6).length = 32 ∧
      (constHash 7).length = 32 ∧ (constHash 8).length = 32) ∧
    publishRoundTripSpec [] (constHash 5) (constHash 6) (constHash 7)
      (constHash 8) [1, 2] [3, 4] :=
  ⟨⟨by decide, by decide, by decide, by decide⟩,
   publish_getPublicData_roundTrip [] (constHash 5) (constHash 6)
     (constHash 7) (constHash 8) [1, 2] [3, 4]
     (by decide) (by decide) (by decide) (by decide)⟩

theorem scanSlots_none (base : Store) (q : Bytes) :
    ∀ fuel idx,
      (∀ j, j < fuel → storeGet base (dbKeyIdenState ++ [idx + j]) ≠ some q) →
      (∀ j, j < fuel → storeGet base (dbKeyIdenState ++ [idx + j]) ≠ none) →
      scanSlots base q idx fuel = .error .idenStateNotFound := by
  intro fuel
  induction fuel with
  | zero => intro idx _ _; rfl
  | succ n ih =>
    intro idx hne hsome
    unfold scanSlots
    cases hv : storeGet base (dbKeyIdenState ++ [idx]) with
    | none =>
      have := hsome 0 (by omega)
      rw [Nat.add_zero] at this
      exact absurd hv this
    | some v =>
      have hvq : ¬ v = q := by
        intro hq
        subst hq
        have := hne 0 (by omega)
        rw [Nat.add_zero] at this
        exact this hv
      dsimp only
      rw [if_neg hvq]
      refine ih (idx + 1) (fun j hj => ?_) (fun j hj => ?_)
      · have := hne (j + 1) (by omega)
        rwa [show idx + (j + 1) = idx + 1 + j by omega] at this
      · have := hsome (j + 1) (by omega)
        rwa [show idx + (j + 1) = idx + 1 + j by omega] at this

theorem scanSlots_found (base : Store) (q : Bytes) :
    ∀ fuel idx j, j < fuel →
      storeGet base (dbKeyIdenState ++ [idx + j]) = some q →
      (∀ i, i < j → ∃ v, storeGet base (dbKeyIdenState ++ [idx + i]) = some v ∧
        v ≠ q) →
      scanSlots base q idx fuel = .ok (idx + j) := by
  intro fuel
  induction fuel with
  | zero => intro idx j hj; omega
  | succ n ih =>
    intro idx j hj hq hpre
    unfold scanSlots
    cases j with
    | zero =>
      rw [Nat.add_zero] at hq ⊢
      rw [hq]
      dsimp only
      rw [if_pos rfl]
      simp
    | succ j0 =>
      obtain ⟨v, hv, hvne⟩ := hpre 0 (by omega)
      rw [Nat.add_zero] at hv
      rw [hv]
      dsimp only
      rw [if_neg hvne]
      have hrec := ih (idx + 1) j0 (by omega)
        (by rwa [show idx + 1 + j0 = idx + (j0 + 1) by omega])
        (fun i hi => by
          obtain ⟨v', hv', hne'⟩ := hpre (i + 1) (by omega)
          exact ⟨v', by rwa [show idx + 1 + i = idx + (i + 1) by omega], hne'⟩)
      rw [hrec]
      congr 1
      omega

theorem readSlot_of_stored {base : Store} {j : Nat}
    {isv cltv rotv rotb retv retb : Bytes}
    (h1 : storeGet base (dbKeyIdenState ++ [j]) = some isv)
    (h2 : storeGet base (dbKeyClaimsRoot ++ [j]) = some cltv)
    (h3 : storeGet base (dbKeyRootsRoot ++ [j]) = some rotv)
    (h4 : storeGet base (dbKeyRootsTree ++ [j]) = some rotb)
    (h5 : storeGet base (dbKeyRevocationsRoot ++ [j]) = some retv)
    (h6 : storeGet base (dbKeyRevocationsTree ++ [j]) = some retb)
    (l1 : isv.length = 32) (l2 : cltv.length = 32) (l3 : rotv.length = 32)
    (l4 : retv.length = 32) :
    readSlot base j =
      .ok { idenState := isv, claimsTreeRoot := cltv, rootsTreeRoot := rotv,
            rootsTree := rotb, revocationsTreeRoot := retv,
            revocationsTree := retb } := by
  simp [readSlot, getK_ok h1, getK_ok h2, getK_ok h3, getK_ok h4,
    getK_ok h5, getK_ok h6, sliceHash_of_len32 l1, sliceHash_of_len32 l2,
    sliceHash_of_len32 l3, sliceHash_of_len32 l4]

set_option maxRecDepth 8000 in
/-- C7 counterexample: (a) on a freshly created capacity-1 cache no
slot holds the queried identity state, yet `GetPublicData` returns the
storage error `notFound` (slot 0 was never written, so the scan's
`tx.Get` fails), not `ErrIdenStateNotFound` as the claim requires; and
(b) on the capacity-2 cache `c7Store` the query `constHash 2` matches
slot 1, yet the six returned fields are those stored at slot 0 (the
source never assigns `cacheIdx` in the query branch), whose identity
state `constHash 1` does not even equal the query — not the fields of
the first matching slot. -/
theorem getPublicData_query_counterexample :
    (storeGet freshStore (dbKeyIdenState ++ [0]) = none ∧
     getPublicData ⟨1⟩ freshStore (some (constHash 1)) = .error .notFound ∧
     PubErr.notFound ≠ PubErr.idenStateNotFound) ∧
    (storeGet c7Store (dbKeyIdenState ++ [1]) = some (constHash 2) ∧
     getPublicData ⟨2⟩ c7Store (some (constHash 2)) =
       .ok { idenState := constHash 1, claimsTreeRoot := constHash 1,
             rootsTreeRoot := constHash 1, rootsTree := [],
             revocationsTreeRoot := constHash 1, revocationsTree := [] } ∧
     constHash 1 ≠ constHash 2) := by
  decide

/-- C7 (amended): provided every slot `0 ≤ i < CacheLen` holds a stored
identity state (a missing slot instead surfaces the storage `notFound`
error), `GetPublicData` on a non-nil query returns
`ErrIdenStateNotFound` exactly when no slot matches; when some slot
matches, the scan stops at the first match but the function returns the
six records stored at slot 0 — the source never assigns `cacheIdx` in
the query branch — which coincide with the matched slot's records only
when the match is at slot 0 (e.g. when `CacheLen = 1`). -/
theorem getPublicData_query_amended (cfg : PubConfig) (base : Store)
    (q : Bytes)
    (hpop : ∀ i, i < cfg.cacheLen →
      storeGet base (dbKeyIdenState ++ [i]) ≠ none) :
    getPublicDataScanSpec cfg base q := by
  classical
  have hmatch : ∀ j, j < cfg.cacheLen →
      storeGet base (dbKeyIdenState ++ [j]) = some q →
      ∃ j0, scanSlots base q 0 cfg.cacheLen = .ok j0 := by
    intro j hj hq
    have hP : ∃ i, i < cfg.cacheLen ∧
        storeGet base (dbKeyIdenState ++ [i]) = some q := ⟨j, hj, hq⟩
    obtain ⟨hj0lt, hj0q⟩ := Nat.find_spec hP
    refine ⟨0 + Nat.find hP,
      scanSlots_found base q cfg.cacheLen 0 (Nat.find hP) hj0lt
        (by rwa [Nat.zero_add]) (fun i2 hi2 => ?_)⟩
    rw [Nat.zero_add]
    have hi2lt : i2 < cfg.cacheLen := by omega
    cases hv : storeGet base (dbKeyIdenState ++ [i2]) with
    | none => exact absurd hv (hpop i2 hi2lt)
    | some v =>
      refine ⟨v, rfl, fun hvq => ?_⟩
      subst hvq
      exact absurd ⟨hi2lt, hv⟩ (Nat.find_min hP hi2)
  refine ⟨⟨?_, ?_⟩, ?_, ?_⟩
  · intro hres i hi hq
    obtain ⟨j0, hscan⟩ := hmatch i hi hq
    rw [getPublicData, hscan] at hres
    rcases readSlot_error hres with h | h <;> simp_all
  · intro hnone
    have hscan : scanSlots base q 0 cfg.cacheLen =
        .error .idenStateNotFound := by
      refine scanSlots_none base q cfg.cacheLen 0 (fun j hj => ?_)
        (fun j hj => ?_)
      · rw [Nat.zero_add]
        exact hnone j hj
      · rw [Nat.zero_add]
        exact hpop j hj
    rw [getPublicData, hscan]
  · intro j hj hq
    obtain ⟨j0, hscan⟩ := hmatch j hj hq
    rw [getPublicData, hscan]
  · intro isv cltv rotv rotb retv retb h1 h2 h3 h4 h5 h6 l1 l2 l3 l4
    exact readSlot_of_stored h1 h2 h3 h4 h5 h6 l1 l2 l3 l4

set_option maxRecDepth 4000 in
/-- Witness for C7 (amended): the one-slot cache `oneSlotStore` queried
for its stored identity state. -/
theorem getPublicData_query_amended_witness :
    (∀ i, i < (1 : Nat) →
      storeGet oneSlotStore (dbKeyIdenState ++ [i]) ≠ none) ∧
    getPublicDataScanSpec ⟨1⟩ oneSlotStore (constHash 5) :=
  ⟨by decide,
   getPublicData_query_amended ⟨1⟩ oneSlotStore (constHash 5) (by decide)⟩

/-- C10: `NewIdenPubOffChainWriteHttp` accepts any `Config` without
validating `CacheLen` (it always commits the config blob and cursor 0);
with `CacheLen = 0` every `Publish` and every `GetPublicData(nil)` that
reaches the cursor arithmetic hits the modulo by zero of
`nextCacheIdx`/`prevCacheIdx`; and no modulo-by-zero is possible once
`CacheLen ≥ 1`. -/
theorem cacheLenZero_divByZero :
    (∀ cfg base,
      storeGet (newIdenPubOffChainWriteHttp cfg base) dbKeyConfig =
        some (configBlob cfg) ∧
      storeGet (newIdenPubOffChainWriteHttp cfg base) dbKeyCacheIdx =
        some [0]) ∧
    (∀ base rotB retB i j k l x r,
      storeGet base dbKeyCacheIdx = some (x :: r) →
      publish ⟨0⟩ base (some rotB) (some retB) i j k l =
        .error .divByZero) ∧
    (∀ base x r, storeGet base dbKeyCacheIdx = some (x :: r) →
      getPublicData ⟨0⟩ base none = .error .divByZero) ∧
    (∀ cfg base rotO retO i j k l, 1 ≤ cfg.cacheLen →
      publish cfg base rotO retO i j k l ≠ .error .divByZero) ∧
    (∀ cfg base q, 1 ≤ cfg.cacheLen →
      getPublicData cfg base q ≠ .error .divByZero) := by
  refine ⟨?_, ?_, ?_, ?_, ?_⟩
  · intro cfg base
    constructor <;>
      simp [newIdenPubOffChainWriteHttp, commitPuts, storePut, storeGet,
        dbKeyConfig, dbKeyCacheIdx]
  · intro base rotB retB i j k l x r h
    simp [publish, h]
  · intro base x r h
    simp [getPublicData, prevCacheIdx, h]
  · intro cfg base rotO retO i j k l hC heq
    unfold publish at heq
    repeat' split at heq
    all_goals simp_all
  · intro cfg base q hC heq
    cases q with
    | none =>
      unfold getPublicData at heq
      dsimp only at heq
      split at heq
      · rename_i e hp
        injection heq with h2
        subst h2
        rcases prevCacheIdx_error hC hp with h | h <;> simp_all
      · rcases readSlot_error heq with h | h <;> simp_all
    | some qv =>
      unfold getPublicData at heq
      dsimp only at heq
      split at heq
      · rename_i e hp
        injection heq with h2
        subst h2
        rcases scanSlots_error hp with h | h <;> simp_all
      · rcases readSlot_error heq with h | h <;> simp_all

set_option maxRecDepth 4000 in
/-- Witness for C10: the fresh store with `CacheLen = 0` panics with the
modulo by zero on `Publish`; the hypothesis is the stored cursor. -/
theorem cacheLenZero_divByZero_witness :
    storeGet freshStore dbKeyCacheIdx = some (0 :: []) ∧
    publish ⟨0⟩ freshStore (some []) (some []) [] [] [] [] =
      .error .divByZero :=
  ⟨by decide,
   cacheLenZero_divByZero.2.1 freshStore [] [] [] [] [] [] 0 [] (by decide)⟩

end Iden3
